import Mathlib

/-!
# Books API (`index.js`): a shallow embedding of the request handlers

The service keeps one JSON document `{ "books": [ ... ] }` in `db.json`.  Every
handler reads the whole document with `readData`, works on the in-memory value
and, for the mutating routes, hands the value back to `writeData`.

The embedding follows `index.js` statement by statement:

* `Json` is the value `JSON.parse` yields; a JavaScript `undefined` is `none`
  in an `Option Json`; a number is given by its value, and the numbers of the
  model are the integer-valued ones;
* an object is its list of own properties, a property read takes the first
  entry with the key, a property write replaces that entry or adds a new one;
  the list keeps creation order (the place JavaScript gives to index-like
  names when it enumerates an object is not modelled: it changes the order of
  the members in the serialised text, not the JSON value);
* an array in memory (`JsArray`) carries its indexed elements and, apart from
  them, the properties whose key is not an index (what `a[-1] = v` creates);
  `JSON.stringify` writes the indexed elements only;
* a handler yields an `Outcome`: the response it sends, or the exception that
  escapes it, together with the document it handed to `writeData`, if any.
-/

namespace BooksApi

/-! ## JSON values and JavaScript objects -/

/-- A parsed JSON value.  Numbers are the integer-valued ones, the only numbers
that `parseInt` and `length + 1` produce and the only ones `book.id === id`
can hold for. -/
inductive Json where
  | null
  | bool (b : Bool)
  | num (n : Int)
  | str (s : String)
  | arr (items : List Json)
  | obj (members : List (String × Json))

/-- Own properties of an object, in creation order. -/
abbrev Props := List (String × Json)

/-- Property read `o[key]`; `none` is `undefined`. -/
def getProp : Props → String → Option Json
  | [], _ => none
  | (k, v) :: rest, key => if k = key then some v else getProp rest key

/-- Property write `o[key] = v`: an existing property keeps its place, a new one
is added after the others. -/
def setProp : Props → String → Json → Props
  | [], key, v => [(key, v)]
  | (k, w) :: rest, key, v =>
    if k = key then (k, v) :: rest else (k, w) :: setProp rest key v

/-- Own property names of an object. -/
def ownKeys (o : Props) : List String := o.map Prod.fst

/-- Elements of an array as properties named by their index. -/
def indexed (xs : List Json) : Props :=
  xs.enum.map fun p => (toString p.1, p.2)

/-- Own enumerable properties of a value, as an object spread `...v` sees them:
the members of an object, the elements of an array under their indices, the
characters of a string under their indices, nothing for the other values.
(In the handlers a spread meets an object, an array or `undefined`: a matched
element has an `id`, and the JSON body parser yields an object or an array.) -/
def ownEntries : Json → Props
  | .obj ms => ms
  | .arr xs => indexed xs
  | .str s => indexed (s.data.map fun ch => Json.str (String.singleton ch))
  | _ => []

/-- One step of the spread: copy the property `key` of `src` into `target`. -/
def copyProp (src : Props) (target : Props) (key : String) : Props :=
  match getProp src key with
  | some v => setProp target key v
  | none => target

/-- Object spread `{ ...target, ...src }` onto an object under construction:
for each own key of `src`, read the property and define it on the target.
Spreading `undefined` (`none`) copies nothing. -/
def spreadInto (target : Props) : Option Json → Props
  | none => target
  | some v => (ownKeys (ownEntries v)).foldl (copyProp (ownEntries v)) target

/-! ## Arrays in memory -/

/-- An array object: the elements at the indices `0 .. length-1`, and the own
properties whose name is not an array index. -/
structure JsArray where
  elems : List Json
  named : Props

/-- Array decoded from JSON: elements only. -/
def JsArray.ofItems (xs : List Json) : JsArray := ⟨xs, []⟩

/-- Read `a[i]`; `none` is `undefined`. -/
def JsArray.index (a : JsArray) (i : Int) : Option Json :=
  if i < 0 then getProp a.named (toString i) else a.elems.get? i.toNat

/-- Write `a[i] = v`.  A negative `i` is not an array index: the write defines the
property named `toString i` and leaves the elements alone.  An index inside the
array replaces the element; an index past the end grows the array, the holes
in between being written as `null` by `JSON.stringify`. -/
def JsArray.assign (a : JsArray) (i : Int) (v : Json) : JsArray :=
  if i < 0 then { a with named := setProp a.named (toString i) v }
  else if i.toNat < a.elems.length then { a with elems := a.elems.set i.toNat v }
  else { a with elems := a.elems ++ List.replicate (i.toNat - a.elems.length) Json.null ++ [v] }

/-- Array method `a.push(v)`. -/
def JsArray.push (a : JsArray) (v : Json) : JsArray :=
  { a with elems := a.elems ++ [v] }

/-- Array method `a.splice(start, deleteCount)`: a negative `start` counts from the end
(clamped at 0), a `start` past the end is the end, and at most the elements up
to the end are removed. -/
def JsArray.splice (a : JsArray) (start : Int) (deleteCount : Nat) : JsArray :=
  let len := a.elems.length
  let from_ : Nat := if start < 0 then ((len : Int) + start).toNat else min start.toNat len
  let count : Nat := min deleteCount (len - from_)
  { a with elems := a.elems.take from_ ++ a.elems.drop (from_ + count) }

/-- What `JSON.stringify` writes for an array: its indexed elements. -/
def JsArray.toJson (a : JsArray) : Json := .arr a.elems

/-! ## Exceptions, the predicate `book.id === id` and the searches -/

/-- An exception escaping a handler. -/
inductive JsError where
  | typeError
  deriving DecidableEq, Repr

/-- Member access `book.id` on an element of the collection: a `TypeError` on
`null`, the property on an object, `undefined` on the other values. -/
def readId : Json → Except JsError (Option Json)
  | .null => .error .typeError
  | .obj ms => .ok (getProp ms "id")
  | _ => .ok none

/-- Strict equality `v === id` where `id` is the result of `parseInt`: an integer,
or `NaN` (`none`), which equals nothing. -/
def strictEqId : Option Json → Option Int → Bool
  | some (.num n), some i => n == i
  | _, _ => false

/-- Array method `books.find((book) => book.id === id)`. -/
def find (id : Option Int) : List Json → Except JsError (Option Json)
  | [] => .ok none
  | book :: rest =>
    match readId book with
    | .error e => .error e
    | .ok v => if strictEqId v id then .ok (some book) else find id rest

/-- Loop of `findIndex`, `k` being the index of the head of the list. -/
def findIndexFrom (id : Option Int) : List Json → Nat → Except JsError Int
  | [], _ => .ok (-1)
  | book :: rest, k =>
    match readId book with
    | .error e => .error e
    | .ok v => if strictEqId v id then .ok (k : Int) else findIndexFrom id rest (k + 1)

/-- Array method `books.findIndex((book) => book.id === id)`: `-1` when no element matches. -/
def findIndex (id : Option Int) (books : List Json) : Except JsError Int :=
  findIndexFrom id books 0

/-! ## Persistence -/

/-- State of `./db.json` as `readData` meets it. -/
inductive Disk where
  /-- Reading fails: `readFileSync` or `JSON.parse` throws (no file, unreadable, not JSON). -/
  | unreadable
  /-- The file parses to `doc`. -/
  | holds (doc : Json)

/-- Function `readData`: the parsed document; the `catch` logs the error and falls
through, so the caller gets `undefined`. -/
def readData : Disk → Option Json
  | .unreadable => none
  | .holds doc => some doc

/-- Function `writeData`: the file then holds the serialised value. -/
def writeData (data : Json) : Disk := .holds data

/-- Evaluation of `data.books` up to the point where an array method is called
on it: a `TypeError` when `data` is `undefined` or `null`, and when `data.books`
is anything but an array.  On success, the members of `data` and the array. -/
def booksOf : Option Json → Except JsError (Props × JsArray)
  | some (.obj ms) =>
    match getProp ms "books" with
    | some (.arr xs) => .ok (ms, JsArray.ofItems xs)
    | _ => .error .typeError
  | _ => .error .typeError

/-- The value `data` after its `books` array was changed in place, as `JSON.stringify` writes it. -/
def docWith (ms : Props) (books : JsArray) : Json :=
  .obj (setProp ms "books" books.toJson)

/-! ## Handlers -/

/-- Response sent with `res.json(v)`: the default status and the value handed to
`JSON.stringify`; the body is `none` when that value is `undefined`, for which
`JSON.stringify` yields no text. -/
structure Response where
  status : Nat
  body : Option Json

/-- Method `res.json(v)`. -/
def resJson (v : Option Json) : Response := ⟨200, v⟩

/-- Result of running a handler. -/
structure Outcome where
  /-- The response sent, or the exception that escapes the handler. -/
  reply : Except JsError Response
  /-- The document handed to `writeData`; `none` when `writeData` was not called. -/
  written : Option Json

/-- The file after a handler ran. -/
def Disk.after (d : Disk) (o : Outcome) : Disk :=
  match o.written with
  | some doc => writeData doc
  | none => d

/-- The success message of `PUT /books/:id`. -/
def updatedMessage : Json := .obj [("message", .str "Book updated succesfully")]

/-- The success message of `DELETE /books/:id`. -/
def deletedMessage : Json := .obj [("message", .str "Book deleted succesfully")]

/-- Handler `GET /books`. -/
def getBooks (disk : Disk) : Outcome :=
  match readData disk with
  | none => ⟨.error .typeError, none⟩
  | some .null => ⟨.error .typeError, none⟩
  | some (.obj ms) => ⟨.ok (resJson (getProp ms "books")), none⟩
  | some _ => ⟨.ok (resJson none), none⟩

/-- Handler `GET /books/:id`; `id` is `parseInt(req.params.id)`. -/
def getBook (disk : Disk) (id : Option Int) : Outcome :=
  match booksOf (readData disk) with
  | .error e => ⟨.error e, none⟩
  | .ok (_, books) =>
    match find id books.elems with
    | .error e => ⟨.error e, none⟩
    | .ok book => ⟨.ok (resJson book), none⟩

/-- Handler `POST /books`; `body` is `req.body`. -/
def postBook (disk : Disk) (body : Json) : Outcome :=
  match booksOf (readData disk) with
  | .error e => ⟨.error e, none⟩
  | .ok (ms, books) =>
    let newBook : Json :=
      .obj (spreadInto [("id", .num ((books.elems.length : Int) + 1))] (some body))
    let books := books.push newBook
    ⟨.ok (resJson (some newBook)), some (docWith ms books)⟩

/-- Handler `PUT /books/:id`. -/
def putBook (disk : Disk) (id : Option Int) (body : Json) : Outcome :=
  match booksOf (readData disk) with
  | .error e => ⟨.error e, none⟩
  | .ok (ms, books) =>
    match findIndex id books.elems with
    | .error e => ⟨.error e, none⟩
    | .ok bookIndex =>
      let merged : Json :=
        .obj (spreadInto (spreadInto [] (books.index bookIndex)) (some body))
      let books := books.assign bookIndex merged
      ⟨.ok (resJson (some updatedMessage)),
        some (docWith ms books)⟩

/-- Handler `DELETE /books/:id`. -/
def deleteBook (disk : Disk) (id : Option Int) : Outcome :=
  match booksOf (readData disk) with
  | .error e => ⟨.error e, none⟩
  | .ok (ms, books) =>
    match findIndex id books.elems with
    | .error e => ⟨.error e, none⟩
    | .ok bookIndex =>
      let books := books.splice bookIndex 1
      ⟨.ok (resJson (some deletedMessage)),
        some (docWith ms books)⟩

/-! ## Stored collections -/

/-- The document that stores the collection `c` of records, each record an
object: `{ "books": c }`. -/
def storedDoc (c : List Props) : Json :=
  .obj [("books", .arr (c.map Json.obj))]

/-- The file holding the collection `c`. -/
def stored (c : List Props) : Disk := .holds (storedDoc c)

/-- The record `r` has the integer id `i`: `r.id === i`. -/
def hasId (i : Int) (r : Props) : Bool := strictEqId (getProp r "id") (some i)

/-- The record `POST /books` builds over a collection of `n` records: `{ id: n + 1, ...body }`. -/
def newRecord (n : Nat) (body : Json) : Props :=
  spreadInto [("id", .num ((n : Int) + 1))] (some body)

/-- Sequence of `POST /books` requests, one per body, each run on the file the previous one left. -/
def createAll (disk : Disk) (bodies : List Json) : Disk :=
  bodies.foldl (fun d body => d.after (postBook d body)) disk

/-! # Lemmas -/

/-! ## Properties of objects -/

theorem getProp_setProp (o : Props) (key : String) (v : Json) (k : String) :
    getProp (setProp o key v) k = if key = k then some v else getProp o k := by
  induction o with
  | nil => simp [setProp, getProp]
  | cons p rest ih =>
    obtain ⟨k0, w⟩ := p
    by_cases h0 : k0 = key
    · subst h0
      by_cases h1 : k0 = k <;> simp [setProp, getProp, h1]
    · by_cases h1 : k0 = k
      · subst h1
        simp [setProp, getProp, h0, Ne.symm h0]
      · simp [setProp, getProp, h0, h1, ih]

theorem getProp_eq_none_iff (o : Props) (k : String) :
    getProp o k = none ↔ k ∉ ownKeys o := by
  induction o with
  | nil => simp [getProp, ownKeys]
  | cons p rest ih =>
    obtain ⟨k0, w⟩ := p
    by_cases h : k0 = k
    · simp [getProp, ownKeys, h]
    · simp only [ownKeys] at ih
      simp [getProp, ownKeys, h, Ne.symm h, ih]

theorem getProp_copyProp (src target : Props) (key k : String) :
    getProp (copyProp src target key) k =
      if key = k then (getProp src k).orElse (fun _ => getProp target k) else getProp target k := by
  unfold copyProp
  by_cases h : key = k
  · subst h
    cases hs : getProp src key <;> simp [getProp_setProp]
  · cases hs : getProp src key <;> simp [getProp_setProp, h]

theorem getProp_foldl_copyProp (src : Props) (keys : List String) (target : Props) (k : String) :
    getProp (keys.foldl (copyProp src) target) k =
      if k ∈ keys then (getProp src k).orElse (fun _ => getProp target k) else getProp target k := by
  induction keys generalizing target with
  | nil => simp
  | cons key rest ih =>
    rw [List.foldl_cons, ih, getProp_copyProp]
    by_cases h1 : key = k
    · subst h1
      cases hs : getProp src key <;> simp
    · by_cases h2 : k ∈ rest
      · simp [h1, h2]
      · simp [h1, h2, Ne.symm h1]

/-- Reading a property of `{ ...target, ...v }`: the property of `v` when it has one, else that of the target. -/
theorem getProp_spreadInto (target : Props) (v : Json) (k : String) :
    getProp (spreadInto target (some v)) k =
      (getProp (ownEntries v) k).orElse (fun _ => getProp target k) := by
  unfold spreadInto
  rw [getProp_foldl_copyProp]
  by_cases h : k ∈ ownKeys (ownEntries v)
  · simp [h]
  · have := (getProp_eq_none_iff (ownEntries v) k).mpr h
    simp [h, this]



/-! ## Searches over a collection of records -/

theorem find_records (id : Option Int) (c : List Props) :
    find id (c.map Json.obj) =
      .ok ((c.find? fun r => strictEqId (getProp r "id") id).map Json.obj) := by
  induction c with
  | nil => rfl
  | cons r rest ih =>
    cases h : strictEqId (getProp r "id") id <;> simp [find, readId, h, ih]

theorem findIndexFrom_absent (id : Option Int) (c : List Props) (k : Nat)
    (h : ∀ r ∈ c, strictEqId (getProp r "id") id = false) :
    findIndexFrom id (c.map Json.obj) k = .ok (-1) := by
  induction c generalizing k with
  | nil => rfl
  | cons r rest ih =>
    have hr := h r (List.mem_cons_self _ _)
    have hrest : ∀ x ∈ rest, strictEqId (getProp x "id") id = false :=
      fun x hx => h x (List.mem_cons_of_mem _ hx)
    simp [findIndexFrom, readId, hr, ih (k + 1) hrest]

theorem findIndexFrom_first (id : Option Int) (pre : List Props) (old : Props)
    (post : List Props) (k : Nat)
    (hpre : ∀ r ∈ pre, strictEqId (getProp r "id") id = false)
    (hold : strictEqId (getProp old "id") id = true) :
    findIndexFrom id ((pre ++ old :: post).map Json.obj) k = .ok ((k + pre.length : Nat) : Int) := by
  induction pre generalizing k with
  | nil => simp [findIndexFrom, readId, hold]
  | cons r rest ih =>
    have hr := hpre r (List.mem_cons_self _ _)
    have hrest : ∀ x ∈ rest, strictEqId (getProp x "id") id = false :=
      fun x hx => hpre x (List.mem_cons_of_mem _ hx)
    have step : findIndexFrom id ((r :: rest ++ old :: post).map Json.obj) k =
        findIndexFrom id ((rest ++ old :: post).map Json.obj) (k + 1) := by
      simp [findIndexFrom, readId, hr]
    rw [step, ih (k + 1) hrest]
    simp only [List.length_cons]
    congr 2
    omega

/-- A list with an element satisfying `p` splits at the first such element. -/
theorem split_at_first {α : Type} (p : α → Bool) (c : List α) (h : ∃ r ∈ c, p r = true) :
    ∃ pre old post, c = pre ++ old :: post ∧ (∀ x ∈ pre, p x = false) ∧ p old = true := by
  induction c with
  | nil => simp at h
  | cons r rest ih =>
    cases hr : p r
    · have h2 : ∃ x ∈ rest, p x = true := by
        obtain ⟨x, hx, hpx⟩ := h
        rcases List.mem_cons.mp hx with rfl | hx
        · rw [hr] at hpx; cases hpx
        · exact ⟨x, hx, hpx⟩
      obtain ⟨pre, old, post, hc, hpre, hold⟩ := ih h2
      refine ⟨r :: pre, old, post, by simp [hc], ?_, hold⟩
      intro x hx
      rcases List.mem_cons.mp hx with rfl | hx
      · exact hr
      · exact hpre x hx
    · exact ⟨[], r, rest, rfl, by simp, hr⟩

/-! ## Reading and writing a stored collection -/

theorem booksOf_stored (c : List Props) :
    booksOf (readData (stored c)) =
      .ok ([("books", .arr (c.map Json.obj))], JsArray.ofItems (c.map Json.obj)) := rfl

theorem docWith_records (xs : List Json) (c : List Props) (named : Props) :
    docWith [("books", .arr xs)] ⟨c.map Json.obj, named⟩ = storedDoc c := by
  simp [docWith, setProp, JsArray.toJson, storedDoc]



theorem postBook_stored (c : List Props) (b : Json) :
    postBook (stored c) b =
      ⟨.ok (resJson (some (.obj (newRecord c.length b)))),
        some (storedDoc (c ++ [newRecord c.length b]))⟩ := by
  unfold postBook
  rw [booksOf_stored]
  have h : (JsArray.ofItems (c.map Json.obj)).push (.obj (newRecord c.length b)) =
      ⟨(c ++ [newRecord c.length b]).map Json.obj, []⟩ := by
    simp [JsArray.ofItems, JsArray.push]
  simp only [JsArray.ofItems, List.length_map] at h ⊢
  simp only [newRecord] at h ⊢
  rw [h, docWith_records]

theorem getBook_stored (c : List Props) (id : Option Int) :
    getBook (stored c) id =
      ⟨.ok ⟨200, (c.find? fun r => strictEqId (getProp r "id") id).map Json.obj⟩, none⟩ := by
  unfold getBook
  rw [booksOf_stored]
  simp only [JsArray.ofItems, find_records, resJson]

theorem newRecord_id (n : Nat) (b : Json) (h : getProp (ownEntries b) "id" = none) :
    getProp (newRecord n b) "id" = some (.num ((n : Int) + 1)) := by
  unfold newRecord
  rw [getProp_spreadInto, h]
  simp [getProp]



theorem get?_first_after {α : Type} (xs : List α) (y : α) (ys : List α) :
    (xs ++ y :: ys).get? xs.length = some y := by
  induction xs with
  | nil => rfl
  | cons x rest ih => exact ih

theorem drop_first_after {α : Type} (xs : List α) (y : α) (ys : List α) :
    (xs ++ y :: ys).drop (xs.length + 1) = ys := by
  induction xs with
  | nil => rfl
  | cons x rest ih => exact ih

theorem findIndex_absent (id : Option Int) (c : List Props)
    (h : ∀ r ∈ c, strictEqId (getProp r "id") id = false) :
    findIndex id (c.map Json.obj) = .ok (-1) :=
  findIndexFrom_absent id c 0 h

theorem findIndex_first (id : Option Int) (pre : List Props) (old : Props) (post : List Props)
    (hpre : ∀ r ∈ pre, strictEqId (getProp r "id") id = false)
    (hold : strictEqId (getProp old "id") id = true) :
    findIndex id ((pre ++ old :: post).map Json.obj) = .ok (pre.length : Int) := by
  unfold findIndex
  rw [findIndexFrom_first id pre old post 0 hpre hold]
  simp

theorem putBook_absent (c : List Props) (id : Option Int) (b : Json)
    (h : ∀ r ∈ c, strictEqId (getProp r "id") id = false) :
    putBook (stored c) id b = ⟨.ok (resJson (some updatedMessage)), some (storedDoc c)⟩ := by
  unfold putBook
  rw [booksOf_stored]
  simp only [JsArray.ofItems, findIndex_absent id c h]
  have hneg : ((-1 : Int) < 0) := by decide
  simp only [JsArray.assign, if_pos hneg, docWith_records]

theorem putBook_first (pre : List Props) (old : Props) (post : List Props) (id : Option Int)
    (b : Json) (hpre : ∀ r ∈ pre, strictEqId (getProp r "id") id = false)
    (hold : strictEqId (getProp old "id") id = true) :
    putBook (stored (pre ++ old :: post)) id b =
      ⟨.ok (resJson (some updatedMessage)),
        some (storedDoc
          (pre ++ spreadInto (spreadInto [] (some (.obj old))) (some b) :: post))⟩ := by
  unfold putBook
  rw [booksOf_stored]
  simp only [JsArray.ofItems, findIndex_first id pre old post hpre hold]
  have hnn : ¬ ((pre.length : Int) < 0) := by omega
  have hlt : (pre.length : Int).toNat < ((pre ++ old :: post).map Json.obj).length := by
    simp
  have hget : ((pre ++ old :: post).map Json.obj).get? (pre.length : Int).toNat
      = some (.obj old) := by
    have := get?_first_after (pre.map Json.obj) (.obj old) (post.map Json.obj)
    simpa using this
  have hset : ((pre ++ old :: post).map Json.obj).set (pre.length : Int).toNat
      (.obj (spreadInto (spreadInto [] (some (.obj old))) (some b)))
      = (pre ++ spreadInto (spreadInto [] (some (.obj old))) (some b) :: post).map Json.obj := by
    simp
  simp only [JsArray.index, JsArray.assign, if_neg hnn, if_pos hlt, hget, hset, docWith_records]

theorem deleteBook_absent (c : List Props) (id : Option Int)
    (h : ∀ r ∈ c, strictEqId (getProp r "id") id = false) :
    deleteBook (stored c) id = ⟨.ok (resJson (some deletedMessage)), some (storedDoc c.dropLast)⟩ := by
  unfold deleteBook
  rw [booksOf_stored]
  simp only [JsArray.ofItems, findIndex_absent id c h]
  have hsp : JsArray.splice ⟨c.map Json.obj, []⟩ (-1) 1 = ⟨c.dropLast.map Json.obj, []⟩ := by
    rcases List.eq_nil_or_concat c with rfl | ⟨init, last, rfl⟩
    · rfl
    · have hneg : ((-1 : Int) < 0) := by decide
      have hfrom : (((init ++ [last]).map Json.obj).length + (-1 : Int)).toNat = init.length := by
        simp
      simp only [JsArray.splice, if_pos hneg, hfrom]
      simp
  rw [hsp, docWith_records]

theorem deleteBook_first (pre : List Props) (old : Props) (post : List Props) (id : Option Int)
    (hpre : ∀ r ∈ pre, strictEqId (getProp r "id") id = false)
    (hold : strictEqId (getProp old "id") id = true) :
    deleteBook (stored (pre ++ old :: post)) id =
      ⟨.ok (resJson (some deletedMessage)), some (storedDoc (pre ++ post))⟩ := by
  unfold deleteBook
  rw [booksOf_stored]
  simp only [JsArray.ofItems, findIndex_first id pre old post hpre hold]
  have hsp : JsArray.splice ⟨(pre ++ old :: post).map Json.obj, []⟩ (pre.length : Int) 1
      = ⟨(pre ++ post).map Json.obj, []⟩ := by
    have hnn : ¬ ((pre.length : Int) < 0) := by omega
    have := drop_first_after (pre.map Json.obj) (.obj old) (post.map Json.obj)
    simp only [JsArray.splice, if_neg hnn]
    simpa using this
  rw [hsp, docWith_records]



theorem after_postBook_stored (c : List Props) (b : Json) :
    (stored c).after (postBook (stored c) b) = stored (c ++ [newRecord c.length b]) := by
  rw [postBook_stored]
  rfl

theorem find?_fresh_append (p : Props → Bool) (c : List Props) (r : Props)
    (hc : ∀ x ∈ c, p x = false) (hr : p r = true) : (c ++ [r]).find? p = some r := by
  induction c with
  | nil => simp [hr]
  | cons x rest ih =>
    have hx := hc x (List.mem_cons_self _ _)
    have hrest : ∀ y ∈ rest, p y = false := fun y hy => hc y (List.mem_cons_of_mem _ hy)
    simp [hx, ih hrest]

theorem createAll_stored (bodies : List Json) (c : List Props)
    (h : ∀ b ∈ bodies, getProp (ownEntries b) "id" = none) :
    ∃ added : List Props, createAll (stored c) bodies = stored (c ++ added) ∧
      added.length = bodies.length ∧
      added.map (fun r => getProp r "id") =
        (List.range' (c.length + 1) bodies.length).map fun k : Nat => some (Json.num (k : Int)) := by
  induction bodies generalizing c with
  | nil => exact ⟨[], by simp [createAll], rfl, rfl⟩
  | cons b rest ih =>
    have hb := h b (List.mem_cons_self _ _)
    have hrest : ∀ x ∈ rest, getProp (ownEntries x) "id" = none :=
      fun x hx => h x (List.mem_cons_of_mem _ hx)
    obtain ⟨added, hrun, hlen, hids⟩ := ih (c ++ [newRecord c.length b]) hrest
    refine ⟨newRecord c.length b :: added, ?_, by simp [hlen], ?_⟩
    · have : createAll (stored c) (b :: rest) =
          createAll ((stored c).after (postBook (stored c) b)) rest := rfl
      rw [this, after_postBook_stored, hrun]
      simp
    · simp only [List.length_append, List.length_singleton] at hids
      simp only [List.map_cons, List.length_cons, List.range'_succ, hids, newRecord_id _ _ hb]
      simp



/-! # The claims -/

/-! ## C1: id of a created record -/

/-- C1 as stated fails: a body may carry its own `id`, and the spread puts it
after the assigned one.  On the empty collection the body `{"id":7}` gives
no record with id `0 + 1`. -/
theorem post_body_id_overrides_assigned_id :
    ¬ ∃ r : Props, getProp r "id" = some (.num ((([] : List Props).length : Int) + 1)) ∧
        (postBook (stored []) (.obj [("id", .num 7)])).reply = .ok (resJson (some (.obj r))) ∧
        (postBook (stored []) (.obj [("id", .num 7)])).written = some (storedDoc ([] ++ [r])) := by
  rintro ⟨r, hid, hreply, -⟩
  have hrun : (postBook (stored []) (.obj [("id", .num 7)])).reply =
      .ok (resJson (some (.obj [("id", .num 7)]))) := rfl
  rw [hrun] at hreply
  have hr : r = [("id", .num 7)] := by
    simp only [resJson, Except.ok.injEq, Response.mk.injEq, Option.some.injEq, Json.obj.injEq,
      true_and] at hreply
    exact hreply.symm
  subst hr
  simp [getProp] at hid

/-- C1, amended: for every stored collection `c` and every request body `b`
that carries no `id` field, `POST /books` produces a record whose id is
`(number of records in c) + 1`, and that record is both the response and the
one record appended to the collection handed to `writeData`. -/
theorem post_assigns_next_id (c : List Props) (b : Json)
    (h : getProp (ownEntries b) "id" = none) :
    ∃ r : Props, getProp r "id" = some (.num ((c.length : Int) + 1)) ∧
      (postBook (stored c) b).reply = .ok (resJson (some (.obj r))) ∧
      (postBook (stored c) b).written = some (storedDoc (c ++ [r])) := by
  refine ⟨newRecord c.length b, newRecord_id c.length b h, ?_, ?_⟩ <;> rw [postBook_stored]

/-- C1, amended, at `[{"id":1}]` and body `{"title":"X"}`. -/
theorem post_assigns_next_id_witness :
    getProp (ownEntries (.obj [("title", .str "X")])) "id" = none ∧
    ∃ r : Props, getProp r "id" = some (.num (([[("id", .num 1)]] : List Props).length + 1)) ∧
      (postBook (stored [[("id", .num 1)]]) (.obj [("title", .str "X")])).reply =
        .ok (resJson (some (.obj r))) ∧
      (postBook (stored [[("id", .num 1)]]) (.obj [("title", .str "X")])).written =
        some (storedDoc ([[("id", .num 1)]] ++ [r])) :=
  ⟨rfl, post_assigns_next_id [[("id", .num 1)]] (.obj [("title", .str "X")]) rfl⟩

/-! ## C2: create, then fetch by the returned id -/

/-- C2 as stated fails: when a stored record already has the id that the new
record gets, the fetch finds the older record.  On `[{"id":2}]` the body
`{"title":"X"}` is stored under id 2, and `GET /books/2` answers `{"id":2}`,
without the title. -/
theorem get_after_post_finds_older_record :
    ((postBook (stored [[("id", .num 2)]]) (.obj [("title", .str "X")])).reply =
        .ok (resJson (some (.obj [("id", .num 2), ("title", .str "X")]))) ∧
      hasId 2 [("id", .num 2), ("title", .str "X")] = true) ∧
    ¬ ∃ found : Props,
        (getBook ((stored [[("id", .num 2)]]).after
            (postBook (stored [[("id", .num 2)]]) (.obj [("title", .str "X")]))) (some 2)).reply =
          .ok (resJson (some (.obj found))) ∧
        ∀ k v, getProp (ownEntries (.obj [("title", .str "X")])) k = some v →
          getProp found k = some v := by
  refine ⟨⟨rfl, rfl⟩, ?_⟩
  rintro ⟨found, hreply, hfields⟩
  have hrun : (getBook ((stored [[("id", .num 2)]]).after
      (postBook (stored [[("id", .num 2)]]) (.obj [("title", .str "X")]))) (some 2)).reply =
      .ok (resJson (some (.obj [("id", .num 2)]))) := rfl
  rw [hrun] at hreply
  have hf : found = [("id", .num 2)] := by
    simp only [resJson, Except.ok.injEq, Response.mk.injEq, Option.some.injEq, Json.obj.injEq,
      true_and] at hreply
    exact hreply.symm
  subst hf
  have := hfields "title" (.str "X") rfl
  simp [getProp] at this

/-- C2, amended: for every stored collection `c` and request body `b`, if
`POST /books` returns a record with id `i` and no record of `c` has id `i`,
then `GET /books/i` on the resulting file yields a record that has every
field of `b` with the submitted value. -/
theorem get_after_post_has_submitted_fields (c : List Props) (b : Json) (i : Int) (r : Props)
    (hfresh : ∀ x ∈ c, hasId i x = false)
    (hret : (postBook (stored c) b).reply = .ok (resJson (some (.obj r))))
    (hid : hasId i r = true) :
    ∃ found : Props,
      (getBook ((stored c).after (postBook (stored c) b)) (some i)).reply =
        .ok (resJson (some (.obj found))) ∧
      ∀ k v, getProp (ownEntries b) k = some v → getProp found k = some v := by
  rw [postBook_stored] at hret
  have hr : r = newRecord c.length b := by
    simp only [resJson, Except.ok.injEq, Response.mk.injEq, Option.some.injEq, Json.obj.injEq,
      true_and] at hret
    exact hret.symm
  subst hr
  refine ⟨newRecord c.length b, ?_, ?_⟩
  · rw [after_postBook_stored, getBook_stored]
    have := find?_fresh_append (fun x => strictEqId (getProp x "id") (some i)) c
      (newRecord c.length b) hfresh hid
    rw [this]
    rfl
  · intro k v hk
    unfold newRecord
    rw [getProp_spreadInto, hk]
    rfl

/-- C2, amended, at `[{"id":1}]`, body `{"title":"X"}` and the returned id 2. -/
theorem get_after_post_has_submitted_fields_witness :
    (∀ x ∈ ([[("id", .num 1)]] : List Props), hasId 2 x = false) ∧
    (postBook (stored [[("id", .num 1)]]) (.obj [("title", .str "X")])).reply =
      .ok (resJson (some (.obj [("id", .num 2), ("title", .str "X")]))) ∧
    hasId 2 [("id", .num 2), ("title", .str "X")] = true ∧
    ∃ found : Props,
      (getBook ((stored [[("id", .num 1)]]).after
          (postBook (stored [[("id", .num 1)]]) (.obj [("title", .str "X")]))) (some 2)).reply =
        .ok (resJson (some (.obj found))) ∧
      ∀ k v, getProp (ownEntries (.obj [("title", .str "X")])) k = some v →
        getProp found k = some v :=
  ⟨by simp [hasId, getProp, strictEqId], rfl, rfl,
    get_after_post_has_submitted_fields [[("id", .num 1)]] (.obj [("title", .str "X")]) 2
      [("id", .num 2), ("title", .str "X")] (by simp [hasId, getProp, strictEqId]) rfl rfl⟩



/-! ## C3: delete with an id that no record has -/

/-- C3: for every non-empty stored collection `c` and every id `i` that no
record of `c` has, `DELETE /books/i` removes exactly the last record: the
collection handed to `writeData` is `c` without its final element, the other
records unchanged and in order, and the response is
`{"message":"Book deleted succesfully"}`. -/
theorem delete_absent_removes_last (c : List Props) (i : Int) (hne : c ≠ [])
    (habsent : ∀ r ∈ c, hasId i r = false) :
    deleteBook (stored c) (some i) =
        ⟨.ok ⟨200, some (.obj [("message", .str "Book deleted succesfully")])⟩,
          some (storedDoc c.dropLast)⟩ ∧
      c.dropLast ++ [c.getLast hne] = c := by
  refine ⟨?_, List.dropLast_append_getLast hne⟩
  rw [deleteBook_absent c (some i) habsent]
  rfl

/-- C3 at `[{"id":1},{"id":2}]` and id 999. -/
theorem delete_absent_removes_last_witness :
    ([[("id", .num 1)], [("id", .num 2)]] : List Props) ≠ [] ∧
    (∀ r ∈ ([[("id", .num 1)], [("id", .num 2)]] : List Props), hasId 999 r = false) ∧
    deleteBook (stored [[("id", .num 1)], [("id", .num 2)]]) (some 999) =
      ⟨.ok ⟨200, some (.obj [("message", .str "Book deleted succesfully")])⟩,
        some (storedDoc [[("id", .num 1)]])⟩ :=
  ⟨by simp, by simp [hasId, getProp, strictEqId],
    (delete_absent_removes_last [[("id", .num 1)], [("id", .num 2)]] 999 (by simp)
      (by simp [hasId, getProp, strictEqId])).1⟩

/-! ## C4: update with an id that no record has -/

/-- C4 as stated fails: on `[{"id":1}]`, `PUT /books/2` with body `{"title":"Y"}`
raises no exception and calls `writeData`. -/
theorem put_absent_does_not_throw :
    ¬ ((∃ e, (putBook (stored [[("id", .num 1)]]) (some 2) (.obj [("title", .str "Y")])).reply =
          .error e) ∧
        (putBook (stored [[("id", .num 1)]]) (some 2) (.obj [("title", .str "Y")])).written =
          none) := by
  rintro ⟨-, hw⟩
  have hrun : (putBook (stored [[("id", .num 1)]]) (some 2) (.obj [("title", .str "Y")])).written =
      some (storedDoc [[("id", .num 1)]]) := rfl
  rw [hrun] at hw
  cases hw

/-- C4, amended: for every stored collection `c` and every id `i` that no
record of `c` has, `PUT /books/i` raises no exception at the write to index
`-1`: that write defines a property of the array that is not one of its
elements, and the collection handed to `writeData` is `c` itself, no record
added, changed or removed. -/
theorem put_absent_persists_unchanged (c : List Props) (i : Int) (b : Json)
    (habsent : ∀ r ∈ c, hasId i r = false) :
    (∀ e, (putBook (stored c) (some i) b).reply ≠ .error e) ∧
      (putBook (stored c) (some i) b).written = some (storedDoc c) := by
  rw [putBook_absent c (some i) b habsent]
  exact ⟨fun e h => (by cases h), rfl⟩

/-- C4, amended, at `[{"id":1}]`, id 2 and body `{"title":"Y"}`. -/
theorem put_absent_persists_unchanged_witness :
    (∀ r ∈ ([[("id", .num 1)]] : List Props), hasId 2 r = false) ∧
    (∀ e, (putBook (stored [[("id", .num 1)]]) (some 2) (.obj [("title", .str "Y")])).reply ≠
        .error e) ∧
    (putBook (stored [[("id", .num 1)]]) (some 2) (.obj [("title", .str "Y")])).written =
      some (storedDoc [[("id", .num 1)]]) :=
  ⟨by simp [hasId, getProp, strictEqId],
    put_absent_persists_unchanged [[("id", .num 1)]] 2 (.obj [("title", .str "Y")])
      (by simp [hasId, getProp, strictEqId])⟩

/-! ## C5: update of a stored record -/

/-- C5: for every stored collection `c` with a record of id `i` and every body
`b`, `PUT /books/i` replaces the first record with id `i` by its shallow merge
with `b` (a field of `b` has the value of `b`, any other field the value of
the old record), leaves the records before and after it, their order and the
length as they were, and responds `{"message":"Book updated succesfully"}`. -/
theorem put_merges_first_match (c : List Props) (i : Int) (b : Json)
    (hmem : ∃ r ∈ c, hasId i r = true) :
    ∃ (pre : List Props) (old : Props) (post : List Props) (merged : Props),
      c = pre ++ old :: post ∧ (∀ x ∈ pre, hasId i x = false) ∧ hasId i old = true ∧
      (∀ k, getProp merged k = (getProp (ownEntries b) k).orElse fun _ => getProp old k) ∧
      putBook (stored c) (some i) b =
        ⟨.ok ⟨200, some (.obj [("message", .str "Book updated succesfully")])⟩,
          some (storedDoc (pre ++ merged :: post))⟩ ∧
      (pre ++ merged :: post).length = c.length := by
  obtain ⟨pre, old, post, hc, hpre, hold⟩ := split_at_first (hasId i) c hmem
  refine ⟨pre, old, post, spreadInto (spreadInto [] (some (.obj old))) (some b),
    hc, hpre, hold, ?_, ?_, by simp [hc]⟩
  · intro k
    rw [getProp_spreadInto, getProp_spreadInto]
    cases getProp (ownEntries b) k <;> cases hk : getProp old k <;>
      simp [ownEntries, hk, getProp]
  · rw [hc, putBook_first pre old post (some i) b hpre hold]
    rfl

/-- C5 at `[{"id":1,"title":"X"}]`, id 1 and body `{"title":"Y"}`. -/
theorem put_merges_first_match_witness :
    (∃ r ∈ ([[("id", .num 1), ("title", .str "X")]] : List Props), hasId 1 r = true) ∧
    ∃ (pre : List Props) (old : Props) (post : List Props) (merged : Props),
      ([[("id", .num 1), ("title", .str "X")]] : List Props) = pre ++ old :: post ∧
      (∀ x ∈ pre, hasId 1 x = false) ∧ hasId 1 old = true ∧
      (∀ k, getProp merged k =
        (getProp (ownEntries (.obj [("title", .str "Y")])) k).orElse fun _ => getProp old k) ∧
      putBook (stored [[("id", .num 1), ("title", .str "X")]]) (some 1)
          (.obj [("title", .str "Y")]) =
        ⟨.ok ⟨200, some (.obj [("message", .str "Book updated succesfully")])⟩,
          some (storedDoc (pre ++ merged :: post))⟩ ∧
      (pre ++ merged :: post).length =
        ([[("id", .num 1), ("title", .str "X")]] : List Props).length :=
  ⟨⟨_, List.mem_singleton.mpr rfl, rfl⟩,
    put_merges_first_match [[("id", .num 1), ("title", .str "X")]] 1 (.obj [("title", .str "Y")])
      ⟨_, List.mem_singleton.mpr rfl, rfl⟩⟩



/-! ## C6: fetch by id -/

/-- C6 as stated fails in the body of the not-found response: on `[{"id":1}]`,
`GET /books/999` hands `undefined` to `res.json`, so the response carries no
JSON value; it is not the response with body `null`. -/
theorem get_absent_body_is_not_null :
    (∀ r ∈ ([[("id", .num 1)]] : List Props), hasId 999 r = false) ∧
    (getBook (stored [[("id", .num 1)]]) (some 999)).reply ≠ .ok ⟨200, some .null⟩ := by
  refine ⟨by simp [hasId, getProp, strictEqId], ?_⟩
  have hrun : (getBook (stored [[("id", .num 1)]]) (some 999)).reply = .ok ⟨200, none⟩ := rfl
  rw [hrun]
  intro h
  cases h

/-- C6, amended: for every stored collection `c` and every integer id `i`,
`GET /books/i` answers with status 200 and the first record of `c`, in
collection order, whose id equals `i`; when no record of `c` has id `i` it
neither fails nor signals not-found, it answers with status 200 and hands
`undefined` to `res.json`, so the body carries no JSON value (it is not
`null`).  In both cases `writeData` is not called and the file stays as it was. -/
theorem get_returns_first_match (c : List Props) (i : Int) :
    getBook (stored c) (some i) = ⟨.ok ⟨200, (c.find? (hasId i)).map Json.obj⟩, none⟩ ∧
      ((c.find? (hasId i)).map Json.obj = none ↔ ∀ r ∈ c, hasId i r = false) ∧
      (stored c).after (getBook (stored c) (some i)) = stored c := by
  have hrun := getBook_stored c (some i)
  refine ⟨hrun, ?_, ?_⟩
  · simp [List.find?_eq_none]
  · rw [hrun]
    rfl

/-! ## C7: delete of a stored record -/

/-- C7: for every stored collection `c` with a record of id `i`, `DELETE /books/i`
removes exactly one record, the first with id `i`: the collection handed to
`writeData` is `c` without that element, of length `|c| - 1`, the other
records unchanged and in their order.  On `[{"id":1},{"id":2}]`, deleting
id 1 leaves exactly `[{"id":2}]`. -/
theorem delete_removes_first_match (c : List Props) (i : Int)
    (hmem : ∃ r ∈ c, hasId i r = true) :
    (∃ (pre : List Props) (old : Props) (post : List Props),
      c = pre ++ old :: post ∧ (∀ x ∈ pre, hasId i x = false) ∧ hasId i old = true ∧
      (deleteBook (stored c) (some i)).written = some (storedDoc (pre ++ post)) ∧
      (pre ++ post).length = c.length - 1) ∧
    (deleteBook (stored [[("id", .num 1)], [("id", .num 2)]]) (some 1)).written =
      some (storedDoc [[("id", .num 2)]]) := by
  refine ⟨?_, rfl⟩
  obtain ⟨pre, old, post, hc, hpre, hold⟩ := split_at_first (hasId i) c hmem
  refine ⟨pre, old, post, hc, hpre, hold, ?_, by simp [hc]⟩
  rw [hc, deleteBook_first pre old post (some i) hpre hold]

/-- C7 at `[{"id":1},{"id":2},{"id":1}]` and id 1. -/
theorem delete_removes_first_match_witness :
    (∃ r ∈ ([[("id", .num 1)], [("id", .num 2)], [("id", .num 1)]] : List Props),
      hasId 1 r = true) ∧
    (deleteBook (stored [[("id", .num 1)], [("id", .num 2)], [("id", .num 1)]]) (some 1)).written =
      some (storedDoc [[("id", .num 2)], [("id", .num 1)]]) ∧
    ∃ (pre : List Props) (old : Props) (post : List Props),
      ([[("id", .num 1)], [("id", .num 2)], [("id", .num 1)]] : List Props) = pre ++ old :: post ∧
      (∀ x ∈ pre, hasId 1 x = false) ∧ hasId 1 old = true ∧
      (deleteBook (stored [[("id", .num 1)], [("id", .num 2)], [("id", .num 1)]])
        (some 1)).written = some (storedDoc (pre ++ post)) ∧
      (pre ++ post).length =
        ([[("id", .num 1)], [("id", .num 2)], [("id", .num 1)]] : List Props).length - 1 :=
  ⟨⟨_, List.mem_cons_self _ _, rfl⟩, rfl,
    (delete_removes_first_match [[("id", .num 1)], [("id", .num 2)], [("id", .num 1)]] 1
      ⟨_, List.mem_cons_self _ _, rfl⟩).1⟩

/-! ## C8: the collection after a create -/

/-- C8: for every stored collection `c` and every body `b`, the collection that
`POST /books` hands to `writeData` is `c` followed by the one new record, the
record of the response: the stored records keep their value and place and the
length grows by one.  On the empty collection, the body `{"title":"X"}`
leaves exactly `[{"id":1,"title":"X"}]`. -/
theorem post_appends_one_record (c : List Props) (b : Json) :
    (∃ r : Props, (postBook (stored c) b).reply = .ok ⟨200, some (.obj r)⟩ ∧
      (postBook (stored c) b).written = some (storedDoc (c ++ [r])) ∧
      (c ++ [r]).length = c.length + 1) ∧
    (postBook (stored []) (.obj [("title", .str "X")])).written =
      some (storedDoc [[("id", .num 1), ("title", .str "X")]]) := by
  refine ⟨⟨newRecord c.length b, ?_, ?_, by simp⟩, rfl⟩
  · rw [postBook_stored]
    rfl
  · rw [postBook_stored]

/-! ## C9: an unreadable file -/

/-- C9: when `db.json` cannot be read or parsed, `readData` returns `undefined`
and each of the five `/books` handlers fails with a `TypeError` at `data.books`:
none sends a response and none calls `writeData`. -/
theorem unreadable_file_fails_every_handler (id : Option Int) (body : Json) :
    readData .unreadable = none ∧
      getBooks .unreadable = ⟨.error .typeError, none⟩ ∧
      getBook .unreadable id = ⟨.error .typeError, none⟩ ∧
      postBook .unreadable body = ⟨.error .typeError, none⟩ ∧
      putBook .unreadable id body = ⟨.error .typeError, none⟩ ∧
      deleteBook .unreadable id = ⟨.error .typeError, none⟩ :=
  ⟨rfl, rfl, rfl, rfl, rfl, rfl⟩

/-! ## C10: ids after a run of creates -/

/-- C10: for every sequence of `n` bodies without an `id` field, running
`POST /books` once per body from the empty collection, with nothing in
between, leaves a collection of exactly `n` records whose ids are
`1, 2, ..., n` in collection order, hence pairwise distinct. -/
theorem creates_from_empty_number_ids (bodies : List Json)
    (hnoid : ∀ b ∈ bodies, getProp (ownEntries b) "id" = none) :
    ∃ c : List Props, createAll (stored []) bodies = stored c ∧
      c.length = bodies.length ∧
      c.map (fun r => getProp r "id") =
        (List.range' 1 bodies.length).map (fun k : Nat => some (Json.num (k : Int))) ∧
      (c.map fun r => getProp r "id").Nodup := by
  obtain ⟨added, hrun, hlen, hids⟩ := createAll_stored bodies [] hnoid
  refine ⟨added, by simpa using hrun, hlen, by simpa using hids, ?_⟩
  rw [hids]
  refine (List.nodup_range' _ _).map ?_
  intro a b hab
  simpa using hab

/-- C10 at the bodies `{"title":"A"}`, `{}` and `{"title":"C"}`. -/
theorem creates_from_empty_number_ids_witness :
    (∀ b ∈ [Json.obj [("title", .str "A")], .obj [], .obj [("title", .str "C")]],
      getProp (ownEntries b) "id" = none) ∧
    createAll (stored []) [.obj [("title", .str "A")], .obj [], .obj [("title", .str "C")]] =
      stored [[("id", .num 1), ("title", .str "A")], [("id", .num 2)],
        [("id", .num 3), ("title", .str "C")]] ∧
    ∃ c : List Props,
      createAll (stored []) [.obj [("title", .str "A")], .obj [], .obj [("title", .str "C")]] =
        stored c ∧
      c.length = [Json.obj [("title", .str "A")], .obj [], .obj [("title", .str "C")]].length ∧
      c.map (fun r => getProp r "id") =
        (List.range' 1
          [Json.obj [("title", .str "A")], .obj [], .obj [("title", .str "C")]].length).map
          (fun k : Nat => some (Json.num (k : Int))) ∧
      (c.map fun r => getProp r "id").Nodup :=
  ⟨by simp [ownEntries, getProp], rfl,
    creates_from_empty_number_ids
      [.obj [("title", .str "A")], .obj [], .obj [("title", .str "C")]]
      (by simp [ownEntries, getProp])⟩

end BooksApi
